import Mathlib

/-!
Verification of `process_improve/multivariate.py`.

The module is embedded shallowly over `ℚ` (exact rational arithmetic in
place of float64).  External numerical functions that the code calls but
does not implement — `numpy.sqrt`, `scipy.stats.f.isf`,
`scipy.stats.chi2.ppf`, `numpy.cos`, `numpy.sin`, and the constant
`numpy.pi` — are passed as explicit function/value parameters, so every
theorem holds for an arbitrary interpretation of them (hypotheses state
the little that is needed, e.g. that a square root vanishes only at 0).

Matrices are lists of rows (`List (List ℚ)`), mirroring the row-major
numpy/pandas data; column statistics follow the pandas semantics used by
the test-suite inputs (`Series.var`/`std` with ddof = 1, `Series.median`
averaging the two middle order statistics for even length).
-/

namespace ProcessImprove

/-- Arithmetic mean of a vector (`Series.mean`): sum divided by length. -/
def mean (v : List ℚ) : ℚ := v.sum / (v.length : ℚ)

/-- Sample variance with ddof = 1 (`Series.var` / `ndarray.var(ddof=1)`). -/
def var (v : List ℚ) : ℚ :=
  ((v.map (fun x => (x - mean v) ^ 2)).sum) / ((v.length : ℚ) - 1)

/-- Median (`Series.median`): middle order statistic, or the average of the
two middle order statistics when the length is even. -/
def median (v : List ℚ) : ℚ :=
  let s := List.insertionSort (· ≤ ·) v
  let n := s.length
  if n % 2 = 1 then s.getD (n / 2) 0
  else (s.getD (n / 2 - 1) 0 + s.getD (n / 2) 0) / 2

/-- Number of columns of a row-major matrix (length of the first row). -/
def numCols (X : List (List ℚ)) : ℕ := (X.headD []).length

/-- Column `j` of a row-major matrix. -/
def column (X : List (List ℚ)) (j : ℕ) : List ℚ :=
  X.map (fun row => row.getD j 0)

/-- The list of columns of a row-major matrix. -/
def columns (X : List (List ℚ)) : List (List ℚ) :=
  (List.range (numCols X)).map (column X)

/-- Matrix product (`A @ B` for row-major lists of rows). -/
def matmul (A B : List (List ℚ)) : List (List ℚ) :=
  A.map (fun row =>
    (List.range (numCols B)).map (fun j => (List.zipWith (· * ·) row (column B j)).sum))

/-- Entrywise matrix difference (`X - Y`). -/
def matsub (X Y : List (List ℚ)) : List (List ℚ) :=
  List.zipWith (List.zipWith (· - ·)) X Y

/-- State of the `MCUVScaler` estimator.  An unfitted instance has neither
attribute (`none`); `fit` sets both, mirroring attribute creation in
`MCUVScaler.fit`. -/
structure MCUVScaler where
  center_x_ : Option (List ℚ)
  scale_x_ : Option (List ℚ)

/-- `MCUVScaler.fit`: per-column mean as center, per-column sample standard
deviation (ddof = 1, i.e. `sqrt` of the ddof-1 variance) as scale, then
`self.scale_x_[self.scale_x_ == 0] = 1.0` replaces zero scales by 1.
`sqrt` is the external floating-point square root. -/
def MCUVScaler.fit (sqrt : ℚ → ℚ) (X : List (List ℚ)) : MCUVScaler :=
  let center := (columns X).map mean
  let std := (columns X).map (fun c => sqrt (var c))
  let scale := std.map (fun s => if s = 0 then 1 else s)
  { center_x_ := some center, scale_x_ := some scale }

/-- `MCUVScaler.transform`: `check_is_fitted` on `center_x_` and `scale_x_`
(raising `NotFittedError` when absent), then `(X.copy() - center) / scale`
applied row-wise. -/
def MCUVScaler.transform (m : MCUVScaler) (X : List (List ℚ)) :
    Except String (List (List ℚ)) :=
  match m.center_x_ with
  | none => .error "NotFittedError: MCUVScaler center_x_"
  | some c =>
    match m.scale_x_ with
    | none => .error "NotFittedError: MCUVScaler scale_x_"
    | some s =>
      let Xcopy := X
      .ok (Xcopy.map (fun row => List.zipWith (· / ·) (List.zipWith (· - ·) row c) s))

/-- `MCUVScaler.inverse_transform`: `check_is_fitted` on both attributes,
then `X.copy() * scale + center` applied row-wise. -/
def MCUVScaler.inverse_transform (m : MCUVScaler) (X : List (List ℚ)) :
    Except String (List (List ℚ)) :=
  match m.center_x_ with
  | none => .error "NotFittedError: MCUVScaler center_x_"
  | some c =>
    match m.scale_x_ with
    | none => .error "NotFittedError: MCUVScaler scale_x_"
    | some s =>
      let Xcopy := X
      .ok (Xcopy.map (fun row => List.zipWith (· + ·) (List.zipWith (· * ·) row s) c))

/-- State-threading translation of `MCUVScaler.transform` for frame
reasoning: the method receives the instance state and the caller's matrix
and returns (final instance state, caller's matrix after the call, result).
The body contains no assignment to `self.*`; `X = X.copy()` rebinds a local
name to a fresh copy, so the caller's matrix is threaded through unchanged. -/
def MCUVScaler.transformFull (m : MCUVScaler) (X : List (List ℚ)) :
    MCUVScaler × List (List ℚ) × Except String (List (List ℚ)) :=
  match m.center_x_ with
  | none => (m, X, .error "NotFittedError: MCUVScaler center_x_")
  | some c =>
    match m.scale_x_ with
    | none => (m, X, .error "NotFittedError: MCUVScaler scale_x_")
    | some s =>
      let Xcopy := X
      (m, X, .ok (Xcopy.map (fun row => List.zipWith (· / ·) (List.zipWith (· - ·) row c) s)))

/-- State-threading translation of `MCUVScaler.inverse_transform`, as for
`MCUVScaler.transformFull`. -/
def MCUVScaler.inverse_transformFull (m : MCUVScaler) (X : List (List ℚ)) :
    MCUVScaler × List (List ℚ) × Except String (List (List ℚ)) :=
  match m.center_x_ with
  | none => (m, X, .error "NotFittedError: MCUVScaler center_x_")
  | some c =>
    match m.scale_x_ with
    | none => (m, X, .error "NotFittedError: MCUVScaler scale_x_")
    | some s =>
      let Xcopy := X
      (m, X, .ok (Xcopy.map (fun row => List.zipWith (· + ·) (List.zipWith (· * ·) row s) c)))

/-- Outputs of the external sklearn SVD engine that `PCA.fit` consumes:
`self.components_` and `self.explained_variance_` are set by
`super().fit(X)`, and the score matrix is returned by
`super().fit_transform(X)`.  These come from third-party code outside this
repository, so they are taken as inputs of the embedded `fit`. -/
structure SklearnFit where
  components_ : List (List ℚ)
  explained_variance_ : List ℚ
  t_scores : List (List ℚ)

/-- The attributes `PCA.fit` computes and stores on the instance. -/
structure PCAFitState where
  N : ℕ
  scaling_factor_for_scores : List ℚ
  t_scores : List (List ℚ)
  hotellings_T2 : List ℚ
  squared_prediction_error : List ℚ

/-- Body of `PCA.fit` after the external `super().fit`/`fit_transform`
calls: `N = X.shape[0]`; `scaling_factor_for_scores = sqrt(explained_variance_)`;
`hotellings_T2 = sum((t_scores / scaling_factor_for_scores) ** 2, axis=1)`
(the scaling vector broadcast across each score row);
`error_X = X - t_scores @ components_`;
`squared_prediction_error = sum(error_X ** 2, axis=1)`. -/
def PCA.fitState (sqrt : ℚ → ℚ) (ext : SklearnFit) (X : List (List ℚ)) :
    PCAFitState :=
  let scaling := ext.explained_variance_.map sqrt
  let T := ext.t_scores
  let hot := T.map (fun row => ((List.zipWith (· / ·) row scaling).map (fun z => z ^ 2)).sum)
  let error_X := matsub X (matmul T ext.components_)
  { N := X.length
  , scaling_factor_for_scores := scaling
  , t_scores := T
  , hotellings_T2 := hot
  , squared_prediction_error := error_X.map (fun row => (row.map (fun z => z ^ 2)).sum) }

/-- A `PCA` instance: the constructor argument `n_components` plus the
fitted attributes (absent before `fit` is called). -/
structure PCAModel where
  n_components : ℕ
  fitted : Option PCAFitState

/-- `PCA.fit` as a transition on the instance: every derived attribute is
reassigned from the new input; nothing of a previous fit survives. -/
def PCAModel.fit (m : PCAModel) (sqrt : ℚ → ℚ) (ext : SklearnFit)
    (X : List (List ℚ)) : PCAModel :=
  { m with fitted := some (PCA.fitState sqrt ext X) }

/-- `PCA.T2_limit`: asserts `0 < conf_level < 1` (modelled as `none` on
assertion failure), reads `A = self.n_components`, `N = self.N`, and returns
`A*(N-1)*(N+1) / (N*(N-A)) * f.isf(1 - conf_level, A, N - A)`.  The integer
degrees of freedom are passed to the external `isf` as integers, so `N - A`
is negative when `N < A`.  There is no check that `N > A`. -/
def T2_limit (A N : ℕ) (conf_level : ℚ) (isf : ℚ → ℤ → ℤ → ℚ) : Option ℚ :=
  if 0 < conf_level then
    if conf_level < 1 then
      some ((A : ℚ) * ((N : ℚ) - 1) * ((N : ℚ) + 1) / ((N : ℚ) * ((N : ℚ) - (A : ℚ)))
        * isf (1 - conf_level) (A : ℤ) ((N : ℤ) - (A : ℤ)))
    else none
  else none

/-- `PCA.SPE_limit`: `check_is_fitted(self, "squared_prediction_error")`
(raising `NotFittedError` when unfitted), asserts `0 < conf_level < 1`,
takes the median of the SPE values when `N > 7` and the mean otherwise,
takes their variance, forms `g = var/(2*center)` and `h = 2*center^2/var`,
and returns `chi2.ppf(conf_level, h) * g` with `ppf` the external
chi-squared quantile function. -/
def PCAModel.SPE_limit (m : PCAModel) (conf_level : ℚ) (ppf : ℚ → ℚ → ℚ) :
    Except String ℚ :=
  match m.fitted with
  | none => .error "NotFittedError: squared_prediction_error"
  | some st =>
    if 0 < conf_level then
      if conf_level < 1 then
        let spe := st.squared_prediction_error
        let center_spe := if 7 < st.N then median spe else mean spe
        let variance_spe := var spe
        let g := variance_spe / (2 * center_spe)
        let h := 2 * center_spe ^ 2 / variance_spe
        .ok (ppf conf_level h * g)
      else .error "AssertionError: conf_level"
    else .error "AssertionError: conf_level"

/-- `PCA.ellipse_coordinates`: the parameters are `score_h` and `score_v`,
but the first statement of the body is
`h_const = np.sqrt(T2_limit_alpha) * s_h` (followed by
`v_const = np.sqrt(T2_limit_alpha) * s_v`), and the names `s_h` and `s_v`
are defined nowhere — not as parameters, locals, attributes or module
globals.  Python name resolution therefore raises `NameError` on every
call, before any point is produced (the signature also lacks `self`, so a
bound method call misbinds its arguments even before that).  The ellipse
computation described by the docstring is dead code, so the embedding is
the unconditional error path. -/
def ellipse_coordinates (score_h score_v T2_limit_alpha : ℚ)
    (n_points : ℕ) : Except String (List ℚ × List ℚ) :=
  .error "NameError: name s_h is not defined"

/-! Helper lemmas about list indexing and summation. -/

lemma getD_map (f : ℚ → ℚ) (l : List ℚ) (i : ℕ) (h : i < l.length) :
    (l.map f).getD i 0 = f (l.getD i 0) := by
  rw [List.getD_eq_getElem _ _ (by simpa using h), List.getD_eq_getElem _ _ h,
    List.getElem_map]

lemma getD_zipWith (f : ℚ → ℚ → ℚ) (a b : List ℚ) (i : ℕ)
    (ha : i < a.length) (hb : i < b.length) :
    (List.zipWith f a b).getD i 0 = f (a.getD i 0) (b.getD i 0) := by
  have h : i < (List.zipWith f a b).length := by
    rw [List.length_zipWith]; exact lt_min ha hb
  rw [List.getD_eq_getElem _ _ h, List.getD_eq_getElem _ _ ha,
    List.getD_eq_getElem _ _ hb, List.getElem_zipWith]

lemma getD_range_map (f : ℕ → ℚ) (K j : ℕ) (h : j < K) :
    ((List.range K).map f).getD j 0 = f j := by
  rw [List.getD_eq_getElem _ _ (by simpa using h), List.getElem_map,
    List.getElem_range]

lemma sum_eq_sum_range (l : List ℚ) :
    l.sum = ∑ i ∈ Finset.range l.length, l.getD i 0 := by
  induction l with
  | nil => simp
  | cons x xs ih =>
    rw [List.sum_cons, List.length_cons, Finset.sum_range_succ']
    simp only [List.getD_cons_succ, List.getD_cons_zero]
    rw [ih]; ring

lemma roundtrip_row : ∀ (row c s : List ℚ), row.length = c.length →
    c.length = s.length → (∀ x ∈ s, x ≠ 0) →
    List.zipWith (· + ·)
      (List.zipWith (· * ·)
        (List.zipWith (· / ·) (List.zipWith (· - ·) row c) s) s) c = row := by
  intro row
  induction row with
  | nil => intro c s _ _ _; simp
  | cons x xs ih =>
    intro c s h1 h2 hs
    cases c with
    | nil => simp at h1
    | cons cj cs =>
      cases s with
      | nil => simp at h2
      | cons sj ss =>
        have hsj : sj ≠ 0 := hs sj (by simp)
        simp only [List.zipWith_cons_cons, List.cons.injEq]
        refine ⟨by field_simp, ih cs ss (by simpa using h1) (by simpa using h2)
          (fun y hy => hs y (by simp [hy]))⟩

lemma forced_scale_ne_zero (l : List ℚ) :
    ∀ x ∈ l.map (fun s => if s = 0 then 1 else s), x ≠ 0 := by
  intro x hx
  rcases List.mem_map.mp hx with ⟨s, _, rfl⟩
  by_cases hs : s = 0 <;> simp [hs]

lemma zipWith_sub_div_eq_range (row c s : List ℚ) (K : ℕ)
    (hr : row.length = K) (hc : c.length = K) (hs : s.length = K) :
    List.zipWith (· / ·) (List.zipWith (· - ·) row c) s =
      (List.range K).map (fun j => (row.getD j 0 - c.getD j 0) / s.getD j 0) := by
  apply List.ext_getElem
  · simp [List.length_zipWith, hr, hc, hs]
  · intro n h1 h2
    have hn : n < K := by simpa [List.length_zipWith, hr, hc, hs] using h1
    have e1 : (List.zipWith (· / ·) (List.zipWith (· - ·) row c) s).getD n 0 =
        (row.getD n 0 - c.getD n 0) / s.getD n 0 := by
      rw [getD_zipWith _ _ _ _ (by rw [List.length_zipWith, hr, hc]; simpa) (hs ▸ hn),
        getD_zipWith _ _ _ _ (hr ▸ hn) (hc ▸ hn)]
    have e2 : ((List.range K).map
        (fun j => (row.getD j 0 - c.getD j 0) / s.getD j 0)).getD n 0 =
        (row.getD n 0 - c.getD n 0) / s.getD n 0 := getD_range_map _ _ _ hn
    rw [← List.getD_eq_getElem _ 0 h1, ← List.getD_eq_getElem _ 0 h2, e1, e2]

/-! Claim theorems. -/

/-- C1: for a fitted PCA model with component count `A`, observation count
`N > A` and confidence level `0 < level < 1`, `T2_limit` returns
`A*(N-1)*(N+1) / (N*(N-A))` multiplied by the inverse survival function of
the F-distribution with `(A, N-A)` degrees of freedom evaluated at
`1 - level` (the external `isf` being arbitrary). -/
theorem T2_limit_formula (A N : ℕ) (conf_level : ℚ) (isf : ℚ → ℤ → ℤ → ℚ)
    (hAN : A < N) (h0 : 0 < conf_level) (h1 : conf_level < 1) :
    T2_limit A N conf_level isf =
      some ((A : ℚ) * ((N : ℚ) - 1) * ((N : ℚ) + 1) / ((N : ℚ) * ((N : ℚ) - (A : ℚ)))
        * isf (1 - conf_level) (A : ℤ) ((N : ℤ) - (A : ℤ))) := by
  simp [T2_limit, h0, h1]

/-- Witness for C1 at `A = 2`, `N = 5`, `level = 1/2`, `isf ≡ 1`:
the coefficient evaluates to `2*4*6/(5*3) = 16/5`. -/
theorem T2_limit_formula_witness :
    T2_limit 2 5 (1/2) (fun _ _ _ => (1 : ℚ)) = some (16/5) := by
  have h := T2_limit_formula 2 5 (1/2) (fun _ _ _ => (1 : ℚ))
    (by norm_num) (by norm_num) (by norm_num)
  rw [h]; norm_num

/-- C6: the code performs no `N > A` precondition check.  At the failing
input `A = 2`, `N = 1`, `conf_level = 0.95` the assertions on the
confidence level pass and a value is returned (Python evaluates the
formula, handing the negative degrees of freedom `N - A = -1` to
`scipy.stats.f.isf`, which yields NaN), instead of failing with a
specification error.  With the external `isf` instantiated to the constant
1 function, the returned value is the coefficient `2*0*2/(1*(-1)) = 0`. -/
theorem T2_limit_no_N_check :
    T2_limit 2 1 (95/100) (fun _ _ _ => (1 : ℚ)) = some 0 := by
  simp [T2_limit]; norm_num

/-- C8: calling `fit` a second time on the same instance re-runs the fit
from scratch: the resulting instance equals a freshly constructed instance
(same constructor argument `n_components`, no fitted attributes) fit on the
second input alone, for all first and second inputs. -/
theorem PCA_fit_reentrant (m : PCAModel) (sqrt1 sqrt2 : ℚ → ℚ)
    (e1 e2 : SklearnFit) (X1 X2 : List (List ℚ)) :
    (m.fit sqrt1 e1 X1).fit sqrt2 e2 X2 =
      (PCAModel.mk m.n_components none).fit sqrt2 e2 X2 := rfl

/-- C9: on an unfitted `MCUVScaler`, both `transform` and
`inverse_transform` return a not-fitted error (for every input matrix), and
on an unfitted `PCA` instance (no `squared_prediction_error` attribute)
`SPE_limit` returns a not-fitted error (for every confidence level and
every external quantile function). -/
theorem not_fitted_errors (X : List (List ℚ)) (conf_level : ℚ)
    (ppf : ℚ → ℚ → ℚ) (a : ℕ) :
    (MCUVScaler.mk none none).transform X =
        Except.error "NotFittedError: MCUVScaler center_x_" ∧
    (MCUVScaler.mk none none).inverse_transform X =
        Except.error "NotFittedError: MCUVScaler center_x_" ∧
    (PCAModel.mk a none).SPE_limit conf_level ppf =
        Except.error "NotFittedError: squared_prediction_error" :=
  ⟨rfl, rfl, rfl⟩

/-- C10: in the state-threading translation, `transform` and
`inverse_transform` return the instance state and the caller's matrix
unchanged, and their result is exactly the value-level transform of the
input — the result is a function of the values alone, independent of the
input object. -/
theorem transform_frame_conditions (m : MCUVScaler) (X : List (List ℚ)) :
    (m.transformFull X).1 = m ∧ (m.transformFull X).2.1 = X ∧
    (m.transformFull X).2.2 = m.transform X ∧
    (m.inverse_transformFull X).1 = m ∧ (m.inverse_transformFull X).2.1 = X ∧
    (m.inverse_transformFull X).2.2 = m.inverse_transform X := by
  obtain ⟨c, s⟩ := m
  cases c <;> cases s <;>
    exact ⟨rfl, rfl, rfl, rfl, rfl, rfl⟩

/-- C2: for a fitted PCA model and confidence level `0 < level < 1`,
`SPE_limit` computes a center equal to the median of the stored
squared-prediction-error values when `N > 7` and their mean otherwise,
computes their variance, forms `g = var/(2*center)` and
`h = 2*center^2/var`, and returns `g` times the external chi-squared
quantile of `level` with `h` degrees of freedom. -/
theorem SPE_limit_formula (m : PCAModel) (st : PCAFitState) (conf_level : ℚ)
    (ppf : ℚ → ℚ → ℚ) (hf : m.fitted = some st)
    (h0 : 0 < conf_level) (h1 : conf_level < 1) :
    m.SPE_limit conf_level ppf =
      Except.ok
        (var st.squared_prediction_error /
            (2 * (if 7 < st.N then median st.squared_prediction_error
                  else mean st.squared_prediction_error)) *
          ppf conf_level
            (2 * (if 7 < st.N then median st.squared_prediction_error
                  else mean st.squared_prediction_error) ^ 2 /
              var st.squared_prediction_error)) := by
  simp only [PCAModel.SPE_limit, hf, if_pos h0, if_pos h1]
  rw [mul_comm]

/-- Witness for C2: a fitted model with `N = 3 ≤ 7` and SPE values
`[1, 2, 3]` (mean 2, ddof-1 variance 1, so `g = 1/4`, `h = 8`) and the
constant-2 quantile function gives limit `1/2` at level `1/2`. -/
theorem SPE_limit_formula_witness :
    PCAModel.SPE_limit ⟨2, some ⟨3, [], [], [], [1, 2, 3]⟩⟩ (1/2)
        (fun _ _ => (2 : ℚ)) = Except.ok (1/2) := by
  have h := SPE_limit_formula ⟨2, some ⟨3, [], [], [], [1, 2, 3]⟩⟩
    ⟨3, [], [], [], [1, 2, 3]⟩ (1/2) (fun _ _ => (2 : ℚ)) rfl
    (by norm_num) (by norm_num)
  rw [h]
  norm_num [var, mean]

/-- C5: the claim describes the ellipse the docstring intends, but the
code cannot produce it: the body reads the undefined names `s_h` and
`s_v` (the parameters are `score_h` and `score_v`), so every call —
for every pair of score standard deviations, every T² limit value and
every point count, including the default 100 — raises `NameError` before
any of the `n_points` coordinate pairs is produced. -/
theorem ellipse_coordinates_name_error (score_h score_v T2_limit_alpha : ℚ)
    (n_points : ℕ) :
    ellipse_coordinates score_h score_v T2_limit_alpha n_points =
      Except.error "NameError: name s_h is not defined" := rfl

/-- C4: for every rectangular matrix `X` and the `MCUVScaler` fitted on it,
`inverse_transform (transform X)` reproduces `X` exactly: re-applying the
stored scale and re-adding the stored center inverts the
centering-and-scaling transform (for every external square root, since the
forced scale is never zero). -/
theorem MCUVScaler_roundtrip (sqrt : ℚ → ℚ) (X T : List (List ℚ))
    (hX : ∀ row ∈ X, row.length = numCols X)
    (hT : (MCUVScaler.fit sqrt X).transform X = Except.ok T) :
    (MCUVScaler.fit sqrt X).inverse_transform T = Except.ok X := by
  simp only [MCUVScaler.fit, MCUVScaler.transform, Except.ok.injEq] at hT
  simp only [MCUVScaler.fit, MCUVScaler.inverse_transform, Except.ok.injEq]
  subst hT
  rw [List.map_map]
  have hclen : ((columns X).map mean).length = numCols X := by
    simp [columns]
  have hslen : ((((columns X).map (fun c => sqrt (var c))).map
      (fun s => if s = 0 then 1 else s))).length = numCols X := by
    simp [columns]
  conv_rhs => rw [← List.map_id X]
  refine List.map_congr_left (fun row hrow => ?_)
  exact roundtrip_row row _ _ ((hX row hrow).trans hclen.symm)
    (hclen.trans hslen.symm) (forced_scale_ne_zero _)

/-- Witness for C4: fitting on `X = [[1,2],[3,4]]` (centers `[2,3]`, scales
`[2,2]` with `sqrt` the identity) transforms `X` to
`[[-1/2,-1/2],[1/2,1/2]]`, and `inverse_transform` maps that back to `X`. -/
theorem MCUVScaler_roundtrip_witness :
    (MCUVScaler.fit (fun q => q) [[1, 2], [3, 4]]).inverse_transform
        [[-1/2, -1/2], [1/2, 1/2]] = Except.ok [[1, 2], [3, 4]] := by
  have h := MCUVScaler_roundtrip (fun q => q) [[1, 2], [3, 4]]
    [[-1/2, -1/2], [1/2, 1/2]]
    (by intro row hrow
        simp only [List.mem_cons, List.not_mem_nil, or_false] at hrow
        rcases hrow with rfl | rfl <;> rfl)
    (by simp only [MCUVScaler.fit, MCUVScaler.transform, Except.ok.injEq]
        norm_num [columns, column, numCols, mean, var, List.range_succ])
  exact h

/-- C3: for every matrix `X` with at least two rows, `MCUVScaler.fit`
stores the per-column means as center and the per-column sample standard
deviation (ddof = 1, i.e. `sqrt` of the ddof-1 variance) as scale with the
scale of every zero-variance column forced to 1; `transform M` then
returns the matrix with entry `(M[i,j] - center[j]) / scale[j]`, and no
scale entry is zero, so no division by zero occurs for zero-variance
columns.  `sqrt` is any external square root vanishing exactly at 0. -/
theorem MCUVScaler_fit_transform_spec (sqrt : ℚ → ℚ)
    (hsqrt : ∀ q, sqrt q = 0 ↔ q = 0) (X M : List (List ℚ))
    (hX : 2 ≤ X.length) (hM : ∀ row ∈ M, row.length = numCols X) :
    (MCUVScaler.fit sqrt X).center_x_ = some ((columns X).map mean) ∧
    (MCUVScaler.fit sqrt X).scale_x_ =
      some ((columns X).map (fun c => if var c = 0 then 1 else sqrt (var c))) ∧
    (0 : ℚ) ∉ (columns X).map (fun c => if var c = 0 then 1 else sqrt (var c)) ∧
    (MCUVScaler.fit sqrt X).transform M =
      Except.ok (M.map (fun row => (List.range (numCols X)).map (fun j =>
        (row.getD j 0 - mean (column X j)) /
          (if var (column X j) = 0 then 1 else sqrt (var (column X j)))))) := by
  have hscale : ((columns X).map (fun c => sqrt (var c))).map
      (fun s => if s = 0 then 1 else s) =
      (columns X).map (fun c => if var c = 0 then 1 else sqrt (var c)) := by
    rw [List.map_map]
    exact List.map_congr_left (fun c _ => by
      simp only [Function.comp]
      exact if_congr (hsqrt (var c)) rfl rfl)
  have hclen : ((columns X).map mean).length = numCols X := by simp [columns]
  have hslen : (((columns X).map (fun c => sqrt (var c))).map
      (fun s => if s = 0 then 1 else s)).length = numCols X := by simp [columns]
  have hcget : ∀ j, j < numCols X →
      ((columns X).map mean).getD j 0 = mean (column X j) := by
    intro j hj
    rw [columns, List.map_map]
    exact getD_range_map _ _ _ hj
  have hsget : ∀ j, j < numCols X →
      ((columns X).map (fun c => if var c = 0 then 1 else sqrt (var c))).getD j 0 =
        (if var (column X j) = 0 then 1 else sqrt (var (column X j))) := by
    intro j hj
    rw [columns, List.map_map]
    exact getD_range_map _ _ _ hj
  refine ⟨rfl, ?_, ?_, ?_⟩
  · simp only [MCUVScaler.fit, Option.some.injEq]
    exact hscale
  · rw [← hscale]
    intro hmem
    exact forced_scale_ne_zero _ 0 hmem rfl
  · simp only [MCUVScaler.fit, MCUVScaler.transform, Except.ok.injEq]
    refine List.map_congr_left (fun row hrow => ?_)
    rw [zipWith_sub_div_eq_range row _ _ (numCols X) (hM row hrow) hclen hslen]
    refine List.map_congr_left (fun j hj => ?_)
    have hjK : j < numCols X := List.mem_range.mp hj
    rw [hcget j hjK, hscale, hsget j hjK]

/-- Witness for C3: `X = [[1,2],[1,4]]` (first column constant) with `sqrt`
the identity gives center `[1,3]`, scale `[1,2]` (the zero-variance first
column forced to scale 1, the second column with ddof-1 variance 2), no
zero scale, and `transform [[3,5]] = [[2,1]]`. -/
theorem MCUVScaler_fit_transform_spec_witness :
    (MCUVScaler.fit (fun q => q) [[1, 2], [1, 4]]).center_x_ = some [1, 3] ∧
    (MCUVScaler.fit (fun q => q) [[1, 2], [1, 4]]).scale_x_ = some [1, 2] ∧
    (0 : ℚ) ∉ ([1, 2] : List ℚ) ∧
    (MCUVScaler.fit (fun q => q) [[1, 2], [1, 4]]).transform [[3, 5]] =
      Except.ok [[2, 1]] := by
  have h := MCUVScaler_fit_transform_spec (fun q => q) (fun q => Iff.rfl)
    [[1, 2], [1, 4]] [[3, 5]] (by norm_num)
    (by intro row hrow
        simp only [List.mem_cons, List.not_mem_nil, or_false] at hrow
        subst hrow; rfl)
  have hcols : (columns [[1, 2], [1, 4]]).map
      (fun c => if var c = 0 then 1 else (fun q : ℚ => q) (var c)) = [1, 2] := by
    norm_num [columns, column, numCols, mean, var, List.range_succ]
  refine ⟨?_, ?_, ?_, ?_⟩
  · rw [h.1]
    norm_num [columns, column, numCols, mean, List.range_succ]
  · rw [h.2.1, hcols]
  · have h3 := h.2.2.1
    rw [hcols] at h3
    exact h3
  · rw [h.2.2.2]
    norm_num [columns, column, numCols, mean, var, List.range_succ]

/-- C7: after `PCA.fit` succeeds on an `N`-row matrix `X`, the stored
`hotellings_T2` and `squared_prediction_error` are vectors of length `N`,
with `squared_prediction_error[i]` the sum of squared entries of row `i` of
the reconstruction residual `X - t_scores @ components_` and
`hotellings_T2[i]` the sum over components `a` of
`(t_scores[i,a] / sqrt(explained_variance_[a]))^2`.  The hypotheses record
that the external engine returned one score row per observation, score rows
of length `A`, a rectangular `X`, and component rows over the `K` original
variables. -/
theorem PCA_fit_diagnostics (sqrt : ℚ → ℚ) (ext : SklearnFit)
    (X : List (List ℚ)) (hT : ext.t_scores.length = X.length)
    (hTrow : ∀ row ∈ ext.t_scores, row.length = ext.explained_variance_.length)
    (hXrow : ∀ row ∈ X, row.length = numCols X)
    (hC : numCols ext.components_ = numCols X) :
    (PCA.fitState sqrt ext X).hotellings_T2.length = X.length ∧
    (PCA.fitState sqrt ext X).squared_prediction_error.length = X.length ∧
    (PCA.fitState sqrt ext X).hotellings_T2 =
      (List.range X.length).map (fun i =>
        ∑ a ∈ Finset.range ext.explained_variance_.length,
          ((ext.t_scores.getD i []).getD a 0 /
            sqrt (ext.explained_variance_.getD a 0)) ^ 2) ∧
    (PCA.fitState sqrt ext X).squared_prediction_error =
      (List.range X.length).map (fun i =>
        ∑ j ∈ Finset.range (numCols X),
          ((X.getD i []).getD j 0 -
            ((matmul ext.t_scores ext.components_).getD i []).getD j 0) ^ 2) := by
  have hMmlen : (matmul ext.t_scores ext.components_).length = X.length := by
    simp only [matmul, List.length_map]
    exact hT
  have len1 : (PCA.fitState sqrt ext X).hotellings_T2.length = X.length := by
    simp only [PCA.fitState, List.length_map]
    exact hT
  have len2 : (PCA.fitState sqrt ext X).squared_prediction_error.length
      = X.length := by
    simp only [PCA.fitState, matsub, List.length_map, List.length_zipWith, hMmlen]
    exact inf_idem _
  refine ⟨len1, len2, ?_, ?_⟩
  · apply List.ext_getElem
    · rw [len1, List.length_map, List.length_range]
    · intro i h1 h2
      have hiX : i < X.length := by rwa [len1] at h1
      have hiT : i < ext.t_scores.length := by rw [hT]; exact hiX
      simp only [PCA.fitState]
      rw [List.getElem_map, List.getElem_map, List.getElem_range]
      have hrlen : (ext.t_scores[i]).length = ext.explained_variance_.length :=
        hTrow _ (List.getElem_mem hiT)
      have hslen : (ext.explained_variance_.map sqrt).length
          = ext.explained_variance_.length := List.length_map _ _
      have hzlen : (List.zipWith (· / ·) ext.t_scores[i]
          (ext.explained_variance_.map sqrt)).length
          = ext.explained_variance_.length := by
        rw [List.length_zipWith, hrlen, hslen]
        exact inf_idem _
      rw [sum_eq_sum_range]
      rw [show ((List.zipWith (· / ·) ext.t_scores[i]
          (ext.explained_variance_.map sqrt)).map (fun z => z ^ 2)).length
          = ext.explained_variance_.length by rw [List.length_map, hzlen]]
      refine Finset.sum_congr rfl (fun a ha => ?_)
      have haA : a < ext.explained_variance_.length := Finset.mem_range.mp ha
      rw [getD_map _ _ _ (by rw [hzlen]; exact haA)]
      rw [getD_zipWith _ _ _ _ (by rw [hrlen]; exact haA)
        (by rw [hslen]; exact haA)]
      rw [getD_map sqrt _ _ haA]
      rw [List.getD_eq_getElem ext.t_scores [] hiT]
  · apply List.ext_getElem
    · rw [len2, List.length_map, List.length_range]
    · intro i h1 h2
      have hiX : i < X.length := by rwa [len2] at h1
      have hiM : i < (matmul ext.t_scores ext.components_).length := by
        rw [hMmlen]; exact hiX
      have hiE : i < (matsub X (matmul ext.t_scores ext.components_)).length := by
        simp only [matsub, List.length_zipWith, hMmlen]
        rw [inf_idem]; exact hiX
      simp only [PCA.fitState]
      rw [List.getElem_map, List.getElem_map, List.getElem_range]
      have hEi : (matsub X (matmul ext.t_scores ext.components_))[i] =
          List.zipWith (· - ·) X[i]
            (matmul ext.t_scores ext.components_)[i] := by
        simp only [matsub]
        rw [List.getElem_zipWith]
      rw [hEi]
      have hXilen : (X[i]).length = numCols X := hXrow _ (List.getElem_mem hiX)
      have hMilen : ((matmul ext.t_scores ext.components_)[i]).length
          = numCols X := by
        simp only [matmul]
        rw [List.getElem_map, List.length_map, List.length_range]
        exact hC
      have hzlen : (List.zipWith (· - ·) X[i]
          (matmul ext.t_scores ext.components_)[i]).length = numCols X := by
        rw [List.length_zipWith, hXilen, hMilen]
        exact inf_idem _
      rw [sum_eq_sum_range]
      rw [show ((List.zipWith (· - ·) X[i]
          (matmul ext.t_scores ext.components_)[i]).map
            (fun z => z ^ 2)).length = numCols X by rw [List.length_map, hzlen]]
      refine Finset.sum_congr rfl (fun j hj => ?_)
      have hjK : j < numCols X := Finset.mem_range.mp hj
      rw [getD_map _ _ _ (by rw [hzlen]; exact hjK)]
      rw [getD_zipWith _ _ _ _ (by rw [hXilen]; exact hjK)
        (by rw [hMilen]; exact hjK)]
      rw [List.getD_eq_getElem X [] hiX,
        List.getD_eq_getElem (matmul ext.t_scores ext.components_) [] hiM]

/-- Witness for C7: scores `[[1],[2]]`, one explained variance `4`,
components `[[1,0]]`, `X = [[1,2],[3,4]]` and `sqrt` the identity give
`hotellings_T2 = [(1/4)^2, (2/4)^2] = [1/16, 1/4]` and residual
`[[0,2],[1,4]]`, hence `squared_prediction_error = [4, 17]`, both of
length `N = 2`. -/
theorem PCA_fit_diagnostics_witness :
    (PCA.fitState (fun q => q) ⟨[[1, 0]], [4], [[1], [2]]⟩
        [[1, 2], [3, 4]]).hotellings_T2 = [1/16, 1/4] ∧
    (PCA.fitState (fun q => q) ⟨[[1, 0]], [4], [[1], [2]]⟩
        [[1, 2], [3, 4]]).squared_prediction_error = [4, 17] ∧
    (PCA.fitState (fun q => q) ⟨[[1, 0]], [4], [[1], [2]]⟩
        [[1, 2], [3, 4]]).hotellings_T2.length = 2 ∧
    (PCA.fitState (fun q => q) ⟨[[1, 0]], [4], [[1], [2]]⟩
        [[1, 2], [3, 4]]).squared_prediction_error.length = 2 := by
  have h := PCA_fit_diagnostics (fun q => q) ⟨[[1, 0]], [4], [[1], [2]]⟩
    [[1, 2], [3, 4]] rfl
    (by intro row hrow
        simp only [List.mem_cons, List.not_mem_nil, or_false] at hrow
        rcases hrow with rfl | rfl <;> rfl)
    (by intro row hrow
        simp only [List.mem_cons, List.not_mem_nil, or_false] at hrow
        rcases hrow with rfl | rfl <;> rfl)
    rfl
  refine ⟨?_, ?_, by simpa using h.1, by simpa using h.2.1⟩
  · rw [h.2.2.1]
    norm_num [List.range_succ, Finset.sum_range_succ, List.getD]
  · rw [h.2.2.2]
    norm_num [matmul, column, numCols, List.range_succ, Finset.sum_range_succ,
      List.getD]

end ProcessImprove
